import Mathlib

/-!
Verification development for the CSV → HTML dashboard pipeline
(`AnalyseProgramm.py`).  The core pipeline (`_coerce_numeric`,
`_clean_object_columns`, `load_csv`, `infer_units`, `build_figures`,
`write_dashboard`, `generate_dashboard`) is shallowly embedded below.

Modelling conventions:
* A pandas `Series` is a list of optional values together with a dtype tag
  (`numeric`, `object`, or `datetime`); a `DataFrame` is an ordered list of
  named series sharing one row index.
* Floating-point cell values are represented exactly as decimal fixed-point
  numbers `DecNum` (mantissa `m : Int`, scale `e : Nat`, denoting `m / 10^e`);
  the claims only involve decimal literals and sign tests, which this carrier
  represents without rounding.
* External library routines that the source calls but whose code is not part
  of this repository (`pd.to_datetime`, `pio.to_html`, `pd.read_csv` column
  typing) are modelled as explicit function parameters, so every theorem
  holds for an arbitrary deterministic behaviour of those routines.
* `pd.to_numeric(_, errors="coerce")` on text is modelled from the spec:
  parsing optionally signed decimal digit strings with at most one decimal
  point; unparsable text becomes a missing value.
-/

/-- Exact decimal number `m / 10 ^ e`: the model of a float cell value. -/
structure DecNum where
  m : Int
  e : Nat
  deriving DecidableEq, Repr

/-- The rational value denoted by a `DecNum`. -/
def DecNum.toRat (d : DecNum) : ℚ := (d.m : ℚ) / 10 ^ d.e

/-- Strict positivity test, the model of `value > 0` on a float. -/
def DecNum.isPos (d : DecNum) : Bool := decide (0 < d.m)

/-- A pandas Series: a dtype tag plus the column's optional values.
`none` models `NaN`/`pd.NA`/`NaT`. -/
inductive Series where
  | numeric (vals : List (Option DecNum))
  | object (vals : List (Option String))
  | datetime (vals : List (Option Nat))
  deriving DecidableEq, Repr

/-- Number of rows of a series. -/
def Series.vlen : Series → Nat
  | .numeric vs => vs.length
  | .object vs => vs.length
  | .datetime vs => vs.length

/-- Keep the rows of `xs` at which `keep` holds `true` (boolean-mask row
selection, as in `df[mask]`). -/
def filterByMask {α : Type} : List Bool → List α → List α
  | true :: ks, x :: xs => x :: filterByMask ks xs
  | false :: ks, _ :: xs => filterByMask ks xs
  | _, _ => []

/-- Boolean-mask row selection on a series. -/
def Series.mask (s : Series) (keep : List Bool) : Series :=
  match s with
  | .numeric vs => .numeric (filterByMask keep vs)
  | .object vs => .object (filterByMask keep vs)
  | .datetime vs => .datetime (filterByMask keep vs)

/-- A DataFrame: ordered named columns sharing one implicit row index. -/
abbrev DF := List (String × Series)

/-- Row count of a DataFrame (length of its first column). -/
def nrows : DF → Nat
  | [] => 0
  | c :: _ => c.2.vlen

/-- Well-formed DataFrame: every column has the common row count. -/
def wfDF (df : DF) : Prop := ∀ c ∈ df, c.2.vlen = nrows df

instance (df : DF) : Decidable (wfDF df) := by
  unfold wfDF; infer_instance

/-- Boolean-mask row selection applied to every column (`df[mask].copy()`). -/
def maskDF (keep : List Bool) (df : DF) : DF :=
  df.map (fun c => (c.1, c.2.mask keep))

/-- Numeric value of a digit string (most significant digit first). -/
def digitsVal (l : List Char) : Nat :=
  l.foldl (fun n c => 10 * n + (c.toNat - ('0').toNat)) 0

/-- Modelled from the spec: parsing an unsigned decimal number
("parse as floating point"); digits, optionally followed by a decimal point
and further digits.  Anything else is unparsable (`none`). -/
def parseUnsigned (cs : List Char) : Option DecNum :=
  let ip := cs.takeWhile Char.isDigit
  let rest := cs.dropWhile Char.isDigit
  match rest with
  | [] => if ip.isEmpty then none else some ⟨(digitsVal ip : Int), 0⟩
  | ('.') :: fp =>
      if fp.all Char.isDigit ∧ (ip ≠ [] ∨ fp ≠ []) then
        some ⟨(digitsVal (ip ++ fp) : Int), fp.length⟩
      else none
  | _ => none

/-- Modelled from the spec: `pd.to_numeric(text, errors="coerce")` — an
optionally signed decimal number; unparsable text coerces to missing. -/
def parseFloat (cs : List Char) : Option DecNum :=
  match cs with
  | ('-') :: rest => (parseUnsigned rest).map (fun d => ⟨-d.m, d.e⟩)
  | ('+') :: rest => parseUnsigned rest
  | _ => parseUnsigned cs

/-- `','` → `'.'` (the decimal-separator swap of `_coerce_numeric`). -/
def commaToDot (c : Char) : Char := if c = (',') then ('.') else c

/-- One text cell under `_coerce_numeric`'s non-numeric branch:
`str.replace(".", "")` then `str.replace(",", ".")` then numeric coercion.
A missing cell stays missing (`astype(str)` renders it as text that no
numeric parse accepts). -/
def coerceCell (c : Option String) : Option DecNum :=
  match c with
  | none => none
  | some s => parseFloat (((s.data.filter (fun ch => ch ≠ ('.')))).map commaToDot)

/-- `_coerce_numeric` (AnalyseProgramm.py:27): an already numeric-dtype
series keeps its values; an object series is cleaned of `'.'`, `','` is
swapped to `'.'`, and each cell is coerced.  A datetime series is not
numeric-dtype and its text rendering never parses as a number, so every
value coerces to missing. -/
def _coerce_numeric : Series → List (Option DecNum)
  | .numeric vs => vs
  | .object vs => vs.map coerceCell
  | .datetime vs => vs.map (fun _ => none)

/-- Python-style whitespace for `str.strip()` (after the cleaning step has
already replaced NBSP variants and tabs by plain spaces). -/
def isPySpace (c : Char) : Bool :=
  (c == (' ')) || (c == ('\t')) || (c == ('\n')) || (c == ('\r')) ||
    (c == ('\x0b')) || (c == ('\x0c'))

/-- `str.strip()`: drop whitespace from both ends. -/
def pyStrip (l : List Char) : List Char :=
  ((l.dropWhile isPySpace).reverse.dropWhile isPySpace).reverse

/-- Replace narrow no-break space by a plain space. -/
def replNarrowNbsp (c : Char) : Char := if c = ('\u202F') then (' ') else c

/-- Replace no-break space by a plain space. -/
def replNbsp (c : Char) : Char := if c = ('\u00A0') then (' ') else c

/-- Replace a tab by a plain space. -/
def replTab (c : Char) : Char := if c = ('\t') then (' ') else c

/-- One text cell under `_clean_object_columns` (AnalyseProgramm.py:41):
the three single-character replacements applied in dictionary order, then
`str.replace('"', "")` (which removes every double-quote character), then
`str.strip()`; an originally-missing cell is restored to missing by the
mask, and an empty result is replaced by missing. -/
def cleanCell (c : Option String) : Option String :=
  match c with
  | none => none
  | some s =>
      let t := pyStrip ((((s.data.map replNarrowNbsp).map replNbsp).map replTab).filter
        (fun ch => ch ≠ ('"')))
      if t.isEmpty then none else some (String.mk t)

/-- `_clean_object_columns` on one series: only object (text) columns are
touched. -/
def cleanSeries : Series → Series
  | .object vs => .object (vs.map cleanCell)
  | s => s

/-- `_clean_object_columns` (AnalyseProgramm.py:41). -/
def _clean_object_columns (df : DF) : DF :=
  df.map (fun c => (c.1, cleanSeries c.2))

/-- `str(c).strip()` on a column name. -/
def pyStripStr (s : String) : String := String.mk (pyStrip s.data)

/-- Column-name normalisation `df.columns = [str(c).strip() ...]`. -/
def stripColumns (df : DF) : DF := df.map (fun c => (pyStripStr c.1, c.2))

/-- The annotation-marker text searched for by `load_csv`. -/
def markerChars : List Char := ("Definition:").data

/-- `col.astype(str).str.contains("Definition:", na=False)` on one cell:
a missing cell renders as text without the marker, so it is `false`. -/
def cellHasMarker (c : Option String) : Bool :=
  c.elim false (fun s => decide (markerChars <:+: s.data))

/-- Marker test for row `i` of a series; numeric and datetime cells render
as numbers/timestamps, which never contain the marker text. -/
def Series.markerAt (s : Series) (i : Nat) : Bool :=
  match s with
  | .object vs => cellHasMarker (vs.getD i none)
  | _ => false

/-- `definition_mask.any(axis=1)`: for each row, whether any cell contains
the marker. -/
def markerMask (df : DF) : List Bool :=
  (List.range (nrows df)).map (fun i => df.any (fun c => c.2.markerAt i))

/-- The `Definition:` row removal of `load_csv` (AnalyseProgramm.py:85-90):
rows whose (cleaned) cells contain the marker are dropped, guarded by the
`if definition_mask.any().any()` check of the source. -/
def dropDefinitionRows (df : DF) : DF :=
  if (markerMask df).any id then maskDF ((markerMask df).map not) df else df

/-- The models of the two external date-parsing behaviours of
`pd.to_datetime(_, dayfirst=True, errors="coerce")`: on text cells and on
numeric cells.  Kept abstract: every theorem holds for any parser. -/
structure DateParser where
  ofStr : String → Option Nat
  ofNum : DecNum → Option Nat

/-- `pd.to_datetime(series, dayfirst=True, errors="coerce")`: cellwise
parsing; missing stays missing; an already-datetime series is unchanged. -/
def toDatetime (p : DateParser) : Series → List (Option Nat)
  | .object vs => vs.map (fun c => c.bind p.ofStr)
  | .numeric vs => vs.map (fun c => c.bind p.ofNum)
  | .datetime vs => vs

/-- `df[name]`: the first column with the given name. -/
def getCol (df : DF) (nm : String) : Option Series :=
  (df.find? (fun c => c.1 == nm)).map (fun c => c.2)

/-- The cleaned table of `load_csv` just before the `"Datum"` check:
names stripped, object columns cleaned, marker rows dropped. -/
def afterClean (df : DF) : DF :=
  dropDefinitionRows (_clean_object_columns (stripColumns df))

/-- The row-keep mask of `df.dropna(subset=["Datum"])` after date parsing. -/
def keepOfDates (p : DateParser) (d : Series) : List Bool :=
  (toDatetime p d).map Option.isSome

/-- The surviving `"Datum"` values after parsing and `dropna`. -/
def datumVals (p : DateParser) (d : Series) : List (Option Nat) :=
  filterByMask (keepOfDates p d) (toDatetime p d)

/-- The table after `df["Datum"] = pd.to_datetime(...)` and
`df.dropna(subset=["Datum"])`: the date column becomes datetime and every
column is masked by the valid-date rows. -/
def mkDf4 (p : DateParser) (df3 : DF) (d : Series) : DF :=
  df3.map (fun c =>
    if c.1 = ("Datum") then (c.1, Series.datetime (datumVals p d))
    else (c.1, c.2.mask (keepOfDates p d)))

/-- `(coerced > 0).any()`: `NaN > 0` is false in pandas, so missing never
counts. -/
def hasPositive (l : List (Option DecNum)) : Bool :=
  l.any (fun v => v.elim false DecNum.isPos)

/-- The survival loop of `load_csv` (AnalyseProgramm.py:98-105): every
non-date column is coerced and kept (with coerced values) iff some coerced
value is strictly positive; encounter order is preserved. -/
def survivorsOf (df4 : DF) : DF :=
  (df4.filter (fun c => !(c.1 == ("Datum")))).filterMap (fun c =>
    let cv := _coerce_numeric c.2
    if hasPositive cv then some (c.1, Series.numeric cv) else none)

/-- The distinct failures raised by the load stage of the pipeline, one per
`raise RuntimeError` site of `load_csv`'s body. -/
inductive LoadErr where
  | datumFehlt
  | keineSpalten
  deriving DecidableEq, Repr

/-- `load_csv` from the point where the decoded DataFrame exists
(AnalyseProgramm.py:82-110): strip names, clean text, drop marker rows,
require `"Datum"`, parse dates day-first and drop unparsable rows, then
keep `"Datum"` plus the strictly-positive columns; raise if none survive. -/
def load_from_df (p : DateParser) (df : DF) : Except LoadErr DF :=
  let df3 := afterClean df
  match getCol df3 ("Datum") with
  | none => .error .datumFehlt
  | some d =>
      let df4 := mkDf4 p df3 d
      let sv := survivorsOf df4
      if sv.isEmpty then .error .keineSpalten
      else .ok ((("Datum"), Series.datetime (datumVals p d)) :: sv)

/-- `header=max(0, header_row - 1)` (AnalyseProgramm.py:73). -/
def headerIdx (hr : Int) : Nat := (max 0 (hr - 1)).toNat

/-- `pd.read_csv(..., header=max(0, header_row-1))` on already-decoded,
already-split rows: the row at the clamped header index names the columns
and the rows after it are the data; the external column-typing behaviour of
pandas is the parameter `tc`. -/
def read_table (tc : List String → Series) (raw : List (List String)) (hr : Int) : DF :=
  let idx := headerIdx hr
  let header := (raw.get? idx).getD []
  let data := raw.drop (idx + 1)
  header.enum.map (fun e => (e.2, tc (data.map (fun r => r.getD e.1 ("")))))

/-- `load_csv` (AnalyseProgramm.py:63-110) on decoded rows. -/
def load_csv (p : DateParser) (tc : List String → Series)
    (raw : List (List String)) (hr : Int) : Except LoadErr DF :=
  load_from_df p (read_table tc raw hr)

/-- `infer_units` (AnalyseProgramm.py:113-118): the text between the first
`'('` and the first `')'` when the latter comes strictly later, else the
empty string.  Python's `find` returning `-1` is modelled as `none`. -/
def infer_units (nm : String) : String :=
  match nm.data.findIdx? (fun c => c == ('(')), nm.data.findIdx? (fun c => c == (')')) with
  | some s, some e =>
      if s < e then String.mk ((nm.data.drop (s + 1)).take (e - s - 1)) else ("")
  | _, _ => ("")

/-- `units or "Wert"` (AnalyseProgramm.py:128). -/
def yLabelOf (nm : String) : String :=
  let u := infer_units nm
  if u = ("") then ("Wert") else u

/-- One chart of the dashboard (the data `build_figures` puts into a
`go.Figure`). -/
structure Figure where
  title : String
  xLabel : String
  yLabel : String
  traceName : String
  xvals : List (Option Nat)
  yvals : List (Option DecNum)
  deriving DecidableEq, Repr

/-- The y-values a series contributes to its chart; only numeric columns
reach this point in the pipeline. -/
def numValsOf : Series → List (Option DecNum)
  | .numeric vs => vs
  | .object vs => vs.map (fun _ => none)
  | .datetime vs => vs.map (fun _ => none)

/-- `build_figures` (AnalyseProgramm.py:121-149): one figure per non-date
column, in column order, titled by the column name, x-axis `"Datum"`,
y-axis the inferred unit or the placeholder. -/
def build_figures (df : DF) : List Figure :=
  let ta := (getCol df ("Datum")).elim [] (fun s =>
    match s with
    | .datetime vs => vs
    | _ => [])
  (df.filter (fun c => !(c.1 == ("Datum")))).map (fun c =>
    { title := c.1, xLabel := ("Datum"), yLabel := yLabelOf c.1,
      traceName := c.1, xvals := ta, yvals := numValsOf c.2 })

/-- One character under `html.escape`. -/
def escC (c : Char) : List Char :=
  if c = ('&') then ("&amp;").data
  else if c = ('<') then ("&lt;").data
  else if c = ('>') then ("&gt;").data
  else if c = ('"') then ("&quot;").data
  else if c = ('\'') then ("&#x27;").data
  else [c]

/-- `html.escape(title)`. -/
def htmlEscape (s : String) : String := String.mk ((s.data.map escC).flatten)

/-- The embedded style sheet of `write_dashboard` (AnalyseProgramm.py:163). -/
def cssText : String :=
  ("\n:root \x7b --bg:#F9FAFB; --card:#fff; --text:#111827; --border:#E5E7EB; \x7d\n*\x7bbox-sizing:border-box\x7d\nbody\x7bmargin:0;padding:24px;font-family:ui-sans-serif,system-ui,-apple-system,Segoe UI,Roboto,Helvetica,Arial;background:var(--bg);color:var(--text)\x7d\nh1\x7bmargin:0 0 14px 0;font-size:22px\x7d\n.grid\x7bdisplay:grid;grid-template-columns:repeat(auto-fit,minmax(360px,1fr));gap:16px\x7d\n.card\x7bbackground:var(--card);border:1px solid var(--border);border-radius:10px;padding:10px;box-shadow:0 1px 2px rgba(0,0,0,.04)\x7d\n")

/-- `write_dashboard` (AnalyseProgramm.py:152-189) as the document text it
writes: the charting runtime is embedded with exactly the first fragment
(`include_plotlyjs` true iff index 0); `toHtml` is the external
`pio.to_html` renderer. -/
def write_dashboard (toHtml : Bool → Figure → String)
    (figures : List Figure) (title : String) : String :=
  let cards := figures.enum.map (fun e =>
    ("<section class=\x27card\x27>") ++ toHtml (e.1 == 0) e.2 ++ ("</section>"))
  ("<!DOCTYPE html>\n<html lang=\x27de\x27>\n<head>\n  <meta charset=\x27utf-8\x27/>\n  <meta name=\x27viewport\x27 content=\x27width=device-width, initial-scale=1\x27/>\n  <title>")
    ++ htmlEscape title
    ++ ("</title>\n  <style>") ++ cssText ++ ("</style>\n</head>\n<body>\n  <h1>")
    ++ htmlEscape title
    ++ ("</h1>\n  <div class=\x27grid\x27>\n    ")
    ++ String.join cards
    ++ ("\n  </div>\n</body>\n</html>")

/-- `generate_dashboard` (AnalyseProgramm.py:192-208) up to the produced
document text: load, build figures, render. -/
def generate_dashboard (p : DateParser) (tc : List String → Series)
    (toHtml : Bool → Figure → String) (raw : List (List String))
    (title : String) (hr : Int) : Except LoadErr String :=
  (load_csv p tc raw hr).map (fun df => write_dashboard toHtml (build_figures df) title)

deriving instance DecidableEq for Except

/-- The claim's combined space-normalisation: narrow no-break space,
no-break space and tab become a plain space. -/
def replAllSpec (c : Char) : Char :=
  if c = (' ') ∨ c = (' ') ∨ c = ('\t') then (' ') else c

/-- The claim's reading of quote handling: strip only the enclosing quote
characters (at most one at each end), leaving interior text intact. -/
def stripEnclosingQuotes (l : List Char) : List Char :=
  let a := if l.head? = some ('"') then l.tail else l
  if a.getLast? = some ('"') then a.dropLast else a

/-- Cell cleaning exactly as claim C6 words it: space normalisation, strip
enclosing quotes (interior intact), trim, empty result becomes missing. -/
def cleanCellClaim (c : Option String) : Option String :=
  match c with
  | none => none
  | some s =>
      let t := pyStrip (stripEnclosingQuotes (s.data.map replAllSpec))
      if t.isEmpty then none else some (String.mk t)

/-- Cell cleaning as claim C6 must be amended: every double-quote character
is removed, enclosing or interior. -/
def cleanCellAmended (c : Option String) : Option String :=
  match c with
  | none => none
  | some s =>
      let t := pyStrip ((s.data.map replAllSpec).filter (fun ch => !(ch == ('"'))))
      if t.isEmpty then none else some (String.mk t)

/-- All texts `u` such that `"(" ++ u ++ ")"` occurs inside `nm`: the
claim's notion of "a parenthesized substring" of a column name. -/
def parenEnclosedTexts (nm : String) : List String :=
  let cs := nm.data
  (List.range cs.length).flatMap (fun i =>
    (List.range cs.length).filterMap (fun j =>
      if i < j ∧ cs.getD i (' ') = ('(') ∧ cs.getD j (' ') = (')') then
        some (String.mk ((cs.drop (i + 1)).take (j - i - 1)))
      else none))

/-- Claim C7's per-name property: when the name contains a parenthesized
substring, the y-axis label is one of the enclosed texts; otherwise it is
the placeholder. -/
def claimC7At (nm : String) : Prop :=
  (parenEnclosedTexts nm ≠ [] → yLabelOf nm ∈ parenEnclosedTexts nm)
  ∧ (parenEnclosedTexts nm = [] → yLabelOf nm = ("Wert"))

instance (nm : String) : Decidable (claimC7At nm) := by
  unfold claimC7At; infer_instance

/-- A concrete date parser mapping three date texts to day indices. -/
def dpW : DateParser :=
  ⟨fun s => if s = ("d1") then some 1 else if s = ("d2") then some 2
    else if s = ("d3") then some 3 else none,
   fun _ => none⟩

/-- A concrete pandas column-typing behaviour: plain text columns, empty
fields missing. -/
def tcW (cells : List String) : Series :=
  .object (cells.map (fun s => if s = ("") then none else some s))

/-- A concrete external chart renderer. -/
def thW (includeJs : Bool) (f : Figure) : String :=
  (if includeJs then ("[plotly-runtime]") else ("")) ++ ("[chart ") ++ f.title ++ ("]")

/-- Concrete raw rows: informational first line, header on line 2, data. -/
def rawW : List (List String) :=
  [[("info"), ("")], [("Datum"), ("Leistung (kW)")],
   [("d1"), ("1,00")], [("d2"), ("2,50")]]

/-- Scenario-B table: the only non-date column holds `0,00`, `-1,00`, and a
missing entry. -/
def tblB : DF :=
  [(("Datum"), .object [some ("d1"), some ("d2"), some ("d3")]),
   (("Leistung (kW)"), .object [some ("0,00"), some ("-1,00"), none])]

/-- A table whose only date cell fails to parse while the value column is
strictly positive. -/
def tblC1 : DF := [(("Datum"), .object [some ("x")]), (("A"), .object [some ("5")])]

/-- A table whose date parses but whose only value column never exceeds 0. -/
def tblC1b : DF := [(("Datum"), .object [some ("d1")]), (("A"), .object [some ("0")])]

/-- A surviving column whose name has a stray `')'` before its
parenthesized unit. -/
def tblU : DF :=
  [(("Datum"), .object [some ("d1")]), ((")(kW)"), .object [some ("1,5")])]

/-- The load result for `tblU`. -/
def outU : DF :=
  [(("Datum"), .datetime [some 1]), ((")(kW)"), .numeric [some ⟨15, 1⟩])]

/-- Scenario-A-style table: one date column, one positive value column. -/
def tblA : DF :=
  [(("Datum"), .object [some ("d1")]), (("Leistung (kW)"), .object [some ("1,00")])]

/-- The load result for `tblA`. -/
def outA : DF :=
  [(("Datum"), .datetime [some 1]), (("Leistung (kW)"), .numeric [some ⟨100, 2⟩])]

/-- Composite of two successive row masks, expressed at the indexing of the
original rows: positions dropped by `k1` are `false`, and the surviving
positions carry the corresponding entries of `k2`. -/
def expandMask : List Bool → List Bool → List Bool
  | [], _ => []
  | true :: bs, k :: ks => k :: expandMask bs ks
  | true :: bs, [] => false :: expandMask bs []
  | false :: bs, ks => false :: expandMask bs ks

/-- Row `i` of the original table contains the annotation marker in some
cell. -/
def origRowHasMarker (df : DF) (i : Nat) : Prop :=
  ∃ c ∈ df, c.2.markerAt i = true

/-- A table whose first row is a `Definition:` annotation row. -/
def tblM : DF :=
  [(("Datum"), .object [some ("Definition: blah"), some ("d1")]),
   (("B (kW)"), .object [some ("junk"), some ("2,5")])]

/-- The load result for `tblM`: the annotation row is gone. -/
def outM : DF :=
  [(("Datum"), .datetime [some 1]), (("B (kW)"), .numeric [some ⟨25, 1⟩])]

/-! ### Lemmas and claim theorems -/

/-- C1, counterexample: the source has no distinct ParseError.  A table
whose every date cell fails to parse (`tblC1`) produces exactly the same
failure, `RuntimeError("Keine Spalten mit Werten > 0,00 gefunden.")`, as a
table with parseable dates whose columns all fail the positive filter
(`tblC1b`): the two failure kinds coincide, refuting the claimed
distinctness. -/
theorem c1_counterexample :
    load_from_df dpW tblC1 = .error .keineSpalten
    ∧ load_from_df dpW tblC1b = .error .keineSpalten :=
  ⟨by decide, by decide⟩

/-- C4: locale-aware coercion maps `"1.234,56"` to the number `1234.56`,
and on an already numeric column `_coerce_numeric` returns the values
unchanged. -/
theorem c4_coercion_round_trip :
    (_coerce_numeric (Series.object [some ("1.234,56")])).map (Option.map DecNum.toRat)
      = [some ((1234.56 : ℚ))]
    ∧ ∀ vs : List (Option DecNum), _coerce_numeric (Series.numeric vs) = vs := by
  constructor
  · have h : _coerce_numeric (Series.object [some ("1.234,56")])
        = [some ⟨123456, 2⟩] := by decide
    rw [h]
    norm_num [DecNum.toRat]
  · intro vs; rfl

/-- C10: the non-numeric branch deletes every `'.'` before the comma swap,
so the dot-decimal text `"1234.56"` coerces to the integer `123456` and not
to `1234.56`. -/
theorem c10_dots_deleted_first :
    _coerce_numeric (Series.object [some ("1234.56")]) = [some ⟨123456, 0⟩]
    ∧ (DecNum.mk 123456 0).toRat = 123456
    ∧ (DecNum.mk 123456 0).toRat ≠ (1234.56 : ℚ) := by
  refine ⟨by decide, by norm_num [DecNum.toRat], by norm_num [DecNum.toRat]⟩

/-- C9: for every `headerRow ≤ 1` the header index is clamped to `0` and
loading behaves exactly as for `headerRow = 1`; no error is raised. -/
theorem c9_header_row_clamped (p : DateParser) (tc : List String → Series)
    (raw : List (List String)) (hr : Int) (h : hr ≤ 1) :
    headerIdx hr = 0 ∧ load_csv p tc raw hr = load_csv p tc raw 1 := by
  have h0 : headerIdx hr = 0 := by
    unfold headerIdx
    rw [max_eq_left (by omega : hr - 1 ≤ 0)]
    rfl
  refine ⟨h0, ?_⟩
  unfold load_csv read_table
  rw [h0, (by decide : headerIdx 1 = 0)]

/-- C9 witness: `headerRow = 0` on a concrete table. -/
theorem c9_witness :
    (0 : Int) ≤ 1
    ∧ (headerIdx 0 = 0 ∧ load_csv dpW tcW rawW 0 = load_csv dpW tcW rawW 1) :=
  ⟨by decide, c9_header_row_clamped dpW tcW rawW 0 (by decide)⟩

/-- C3: the pipeline is deterministic — identical raw input, title, and
header row produce an identical output document, for any fixed behaviour of
the external renderer and column-typing routines. -/
theorem c3_deterministic (p : DateParser) (tc : List String → Series)
    (th : Bool → Figure → String) (raw1 raw2 : List (List String))
    (t1 t2 : String) (hr1 hr2 : Int)
    (hraw : raw1 = raw2) (ht : t1 = t2) (hhr : hr1 = hr2) :
    generate_dashboard p tc th raw1 t1 hr1 = generate_dashboard p tc th raw2 t2 hr2 := by
  subst hraw; subst ht; subst hhr; rfl

/-- C3 witness: two runs on the concrete table agree. -/
theorem c3_witness :
    generate_dashboard dpW tcW thW rawW ("Titel") 2
      = generate_dashboard dpW tcW thW rawW ("Titel") 2 :=
  c3_deterministic dpW tcW thW rawW rawW ("Titel") ("Titel") 2 2 rfl rfl rfl

/-- C6, counterexample: cleaning a cell whose quote character is interior
(`a"b`) removes it, while the claim's transform (strip only enclosing
quotes, interior text intact) keeps it. -/
theorem c6_counterexample :
    cleanCell (some ("a\"b")) ≠ cleanCellClaim (some ("a\"b")) := by decide

/-- C7, counterexample: the column `")(kW)"` survives the pipeline, its
name contains the parenthesized substring `"(kW)"`, yet its chart's y-axis
label is the placeholder `"Wert"` and not the enclosed text — because the
source compares the first `'('` with the first `')'`, which here precedes
it. -/
theorem c7_counterexample :
    load_from_df dpW tblU = .ok outU
    ∧ (build_figures outU).map Figure.yLabel = [("Wert")]
    ∧ (build_figures outU).map Figure.title = [(")(kW)")]
    ∧ ¬ claimC7At (")(kW)") :=
  ⟨by decide, by decide, by decide, by decide⟩

/-- Pointwise agreement of the source's three sequential replacements with
the claim's combined space normalisation. -/
theorem replChain_eq_replAllSpec (a : Char) :
    replTab (replNbsp (replNarrowNbsp a)) = replAllSpec a := by
  by_cases h1 : a = ('\u202F')
  · subst h1; simp [replNarrowNbsp, replNbsp, replTab, replAllSpec]
  · by_cases h2 : a = ('\u00A0')
    · subst h2; simp [replNarrowNbsp, replNbsp, replTab, replAllSpec, h1]
    · by_cases h3 : a = ('\t')
      · subst h3; simp [replNarrowNbsp, replNbsp, replTab, replAllSpec]
      · simp [replNarrowNbsp, replNbsp, replTab, replAllSpec, h1, h2, h3]

/-- C6 amended: cleaning replaces the three space characters by a plain
space, removes every double-quote character (enclosing or interior), trims
both ends, and turns an empty result into a missing value, which is
distinct from the string `"0"`. -/
theorem c6_cleaning_amended :
    (∀ c, cleanCell c = cleanCellAmended c)
    ∧ cleanCell (some ("")) = none
    ∧ cleanCell (some ("0")) = some ("0")
    ∧ (none : Option String) ≠ some ("0") := by
  refine ⟨?_, by decide, by decide, by decide⟩
  intro c
  cases c with
  | none => rfl
  | some s =>
      have hmap : ((s.data.map replNarrowNbsp).map replNbsp).map replTab
          = s.data.map replAllSpec := by
        rw [List.map_map, List.map_map]
        exact List.map_congr_left (fun a _ => replChain_eq_replAllSpec a)
      have hfil : ((s.data.map replAllSpec).filter (fun ch => ch ≠ ('"')))
          = ((s.data.map replAllSpec).filter (fun ch => !(ch == ('"')))) := by
        apply List.filter_congr
        intro a _
        by_cases h : a = ('"') <;> simp [h]
      simp only [cleanCell, cleanCellAmended]
      rw [hmap, hfil]

/-- `findIdx?` starting at `n` finds `i`: the list splits at position
`i - n` into a prefix on which the predicate fails and a hit. -/
theorem findIdxSplitAux {p : Char → Bool} :
    ∀ (l : List Char) (n i : Nat), List.findIdx? p l n = some i →
      ∃ a c b, l = a ++ c :: b ∧ n + a.length = i ∧ p c = true ∧ ∀ x ∈ a, p x = false := by
  intro l
  induction l with
  | nil =>
      intro n i h
      simp [List.findIdx?] at h
  | cons x xs ih =>
      intro n i h
      rw [List.findIdx?_cons] at h
      by_cases hp : p x = true
      · rw [if_pos hp] at h
        injection h with h1
        exact ⟨[], x, xs, rfl, by simpa using h1, hp, by simp⟩
      · rw [if_neg hp] at h
        obtain ⟨a, c, b, hl, hlen, hc, hall⟩ := ih (n + 1) i h
        refine ⟨x :: a, c, b, by rw [hl]; rfl, by simp only [List.length_cons]; omega, hc, ?_⟩
        intro y hy
        rcases List.mem_cons.mp hy with h1 | h2
        · rw [h1]; simpa using hp
        · exact hall y h2

/-- A successful `findIdx?` splits the list at the found index: everything
before the hit fails the predicate. -/
theorem findIdxSplit {p : Char → Bool} {l : List Char} {i : Nat}
    (h : l.findIdx? p = some i) :
    ∃ a c b, l = a ++ c :: b ∧ a.length = i ∧ p c = true ∧ ∀ x ∈ a, p x = false := by
  obtain ⟨a, c, b, hl, hlen, hc, hall⟩ := findIdxSplitAux l 0 i h
  exact ⟨a, c, b, hl, by simpa using hlen, hc, hall⟩

/-- C7 amended: for every column name, (i) when the name decomposes around
its first `'('` and first `')'` with the `')'` strictly later, the text
strictly between them is the y-axis label, except that an empty enclosed
text falls back to the placeholder `"Wert"`; and (ii) when no such
decomposition exists — no parentheses, an unmatched `'('`, or every `')'`
before the first `'('` — the label is the placeholder `"Wert"`. -/
theorem c7_unit_label_amended (nm : String) :
    (∀ a u b : List Char, nm.data = a ++ ('(') :: (u ++ (')') :: b) →
        ('(') ∉ a → (')') ∉ a → (')') ∉ u →
        yLabelOf nm = if u = [] then ("Wert") else String.mk u)
    ∧ ((¬ ∃ a u b : List Char, nm.data = a ++ ('(') :: (u ++ (')') :: b)
          ∧ ('(') ∉ a ∧ (')') ∉ a ∧ (')') ∉ u)
        → yLabelOf nm = ("Wert")) := by
  constructor
  · intro a u b hnm ha ha' hu
    have hfo : nm.data.findIdx? (fun c => c == ('(')) = some a.length := by
      rw [hnm, List.findIdx?_append]
      rw [List.findIdx?_eq_none_iff.mpr (fun x hx => by
        simp only [beq_eq_false_iff_ne]; exact fun h => ha (h ▸ hx))]
      rw [List.findIdx?_cons]
      simp
    have hsplit : a ++ ('(') :: (u ++ (')') :: b) = (a ++ ('(') :: u) ++ (')') :: b := by
      simp
    have hfc : nm.data.findIdx? (fun c => c == (')')) = some (a.length + (u.length + 1)) := by
      rw [hnm, hsplit, List.findIdx?_append]
      rw [List.findIdx?_eq_none_iff.mpr ?side]
      case side =>
        intro x hx
        simp only [List.mem_append, List.mem_cons] at hx
        simp only [beq_eq_false_iff_ne]
        rcases hx with hxa | hxc | hxu
        · exact fun h => ha' (h ▸ hxa)
        · subst hxc; decide
        · exact fun h => hu (h ▸ hxu)
      rw [List.findIdx?_cons]
      simp only [if_pos (by decide : ((')') == (')')) = true), Option.none_or,
        List.length_append, List.length_cons]
      show Option.map (fun i => i + (a.length + (u.length + 1))) (some 0) = _
      simp only [Option.map_some']
      congr 1
      omega
    have key : infer_units nm = String.mk u := by
      unfold infer_units
      rw [hfo, hfc]
      simp only [if_pos (by omega : a.length < a.length + (u.length + 1))]
      congr 1
      rw [show a.length + (u.length + 1) - a.length - 1 = u.length from by omega]
      rw [hnm]
      rw [show a ++ ('(') :: (u ++ (')') :: b) = (a ++ [('(')]) ++ (u ++ (')') :: b) from by
        simp]
      rw [show a.length + 1 = (a ++ [('(')]).length from by simp]
      rw [List.drop_left]
      exact List.take_left u _
    unfold yLabelOf
    rw [key]
    by_cases hue : u = []
    · subst hue; simp
    · rw [if_neg ?_, if_neg hue]
      intro hcon
      exact hue (by simpa [String.ext_iff] using hcon)
  · intro hno
    have hiu : infer_units nm = ("") := by
      unfold infer_units
      cases hs : nm.data.findIdx? (fun c => c == ('(')) with
      | none => rfl
      | some s =>
          cases he : nm.data.findIdx? (fun c => c == (')')) with
          | none => rfl
          | some e =>
              by_cases hlt : s < e
              · exfalso
                apply hno
                obtain ⟨a1, c1, b1, hcs1, hlen1, hc1, hall1⟩ := findIdxSplit hs
                obtain ⟨a2, c2, b2, hcs2, hlen2, hc2, hall2⟩ := findIdxSplit he
                have hc1e : c1 = ('(') := by simpa using hc1
                have hc2e : c2 = (')') := by simpa using hc2
                subst hc1e
                subst hc2e
                have heq : a1 ++ ('(') :: b1 = a2 ++ (')') :: b2 := by
                  rw [← hcs1]
                  exact hcs2
                rcases List.append_eq_append_iff.mp heq with ⟨m, ha2, hb1⟩ | ⟨m, ha1, hb2⟩
                · cases m with
                  | nil =>
                      exfalso
                      have hll : a2.length = a1.length := by rw [ha2]; simp
                      omega
                  | cons x u =>
                      rw [List.cons_append] at hb1
                      have hx : ('(') = x := by injection hb1
                      have hbu : b1 = u ++ (')') :: b2 := by injection hb1 with _ h2
                      refine ⟨a1, u, b2, ?_, ?_, ?_, ?_⟩
                      · rw [hcs1, hbu]
                      · intro hmem
                        simpa using hall1 _ hmem
                      · intro hmem
                        have hm2 : (')') ∈ a2 := by
                          rw [ha2]
                          exact List.mem_append_left _ hmem
                        simpa using hall2 _ hm2
                      · intro hmem
                        have hm2 : (')') ∈ a2 := by
                          rw [ha2]
                          exact List.mem_append_right _ (List.mem_cons_of_mem x hmem)
                        simpa using hall2 _ hm2
                · exfalso
                  have hll : a1.length = a2.length + m.length := by rw [ha1]; simp
                  omega
              · show (if s < e
                    then String.mk ((nm.data.drop (s + 1)).take (e - s - 1)) else ("")) = ("")
                rw [if_neg hlt]
    unfold yLabelOf
    rw [hiu]
    rfl

/-- C7 amended, witness: `"Leistung (kW)"` decomposes around its first
parenthesis pair and gets y-axis label `"kW"`; `"Datum"` has no
parenthesized part and gets the placeholder. -/
theorem c7_witness :
    (yLabelOf ("Leistung (kW)")
      = if (("kW").data : List Char) = [] then ("Wert") else String.mk (("kW").data))
    ∧ yLabelOf ("Datum") = ("Wert") :=
  ⟨(c7_unit_label_amended ("Leistung (kW)")).1 (("Leistung ").data) (("kW").data) []
      (by decide) (by decide) (by decide) (by decide),
   (c7_unit_label_amended ("Datum")).2 (by
      rintro ⟨a, u, b, heq, -, -, -⟩
      have hmem : ('(') ∈ ("Datum").data := by
        rw [heq]
        exact List.mem_append_right a (List.mem_cons_self _ _)
      exact absurd hmem (by decide))⟩

/-- A mask that is everywhere false selects nothing. -/
theorem filterByMask_allFalse {α : Type} (k : List Bool) (xs : List α)
    (h : ∀ b ∈ k, b = false) : filterByMask k xs = [] := by
  induction k generalizing xs with
  | nil => cases xs <;> rfl
  | cons b k ih =>
      cases xs with
      | nil => cases b <;> rfl
      | cons x xs =>
          have hb : b = false := h b (by simp)
          subst hb
          show filterByMask k xs = []
          exact ih xs (fun b hb => h b (by simp [hb]))

/-- Coercion of a series masked by an all-false keep list is empty. -/
theorem coerce_mask_allFalse (s : Series) (k : List Bool)
    (h : ∀ b ∈ k, b = false) : _coerce_numeric (s.mask k) = [] := by
  cases s <;> simp [Series.mask, _coerce_numeric, filterByMask_allFalse _ _ h]

/-- C1 amended: when every date cell fails to parse — zero rows survive
date parsing — the pipeline fails, but with the very same failure as when
zero columns survive the positive filter (the RuntimeError
`"Keine Spalten mit Werten > 0,00 gefunden."`); the source raises no
distinct ParseError. -/
theorem c1_zero_rows_same_error (p : DateParser) (df : DF) (d : Series)
    (hD : getCol (afterClean df) ("Datum") = some d)
    (hall : ∀ v ∈ toDatetime p d, v = none) :
    load_from_df p df = .error .keineSpalten := by
  have hkf : ∀ b ∈ keepOfDates p d, b = false := by
    intro b hb
    obtain ⟨v, hv, hveq⟩ := List.mem_map.mp hb
    rw [← hveq, hall v hv]
    rfl
  have hsv : survivorsOf (mkDf4 p (afterClean df) d) = [] := by
    unfold survivorsOf
    apply List.filterMap_eq_nil_iff.mpr
    intro c hc
    obtain ⟨hcm, hcp⟩ := List.mem_filter.mp hc
    obtain ⟨c3, _, hceq⟩ := List.mem_map.mp hcm
    by_cases hnd : c3.1 = ("Datum")
    · exfalso
      rw [← hceq] at hcp
      simp [hnd] at hcp
    · have hc2 : c.2 = c3.2.mask (keepOfDates p d) := by
        rw [← hceq]; simp [hnd]
      simp only [hc2, coerce_mask_allFalse _ _ hkf]
      rfl
  simp only [load_from_df, hD, hsv]
  rfl

/-- C1 amended, witness: the table `tblC1` (its only date cell fails to
parse) hits the `keineSpalten` failure. -/
theorem c1_witness : load_from_df dpW tblC1 = .error .keineSpalten :=
  c1_zero_rows_same_error dpW tblC1 (.object [some ("x")]) (by decide) (by decide)

/-- C5: under a present date column, the pipeline yields the
`keineSpalten` failure (the spec's DataError) iff every non-date column of
the date-filtered table fails the strictly-positive test. -/
theorem c5_data_error_iff (p : DateParser) (df : DF) (d : Series)
    (hD : getCol (afterClean df) ("Datum") = some d) :
    load_from_df p df = .error .keineSpalten ↔
      ∀ c ∈ mkDf4 p (afterClean df) d, ¬ c.1 = ("Datum") →
        hasPositive (_coerce_numeric c.2) = false := by
  have hiff : (survivorsOf (mkDf4 p (afterClean df) d) = []) ↔
      ∀ c ∈ mkDf4 p (afterClean df) d, ¬ c.1 = ("Datum") →
        hasPositive (_coerce_numeric c.2) = false := by
    unfold survivorsOf
    rw [List.filterMap_eq_nil_iff]
    constructor
    · intro h c hc hnd
      have hcf : c ∈ (mkDf4 p (afterClean df) d).filter (fun c => !(c.1 == ("Datum"))) :=
        List.mem_filter.mpr ⟨hc, by simpa using hnd⟩
      have hres := h c hcf
      by_cases hp : hasPositive (_coerce_numeric c.2) = true
      · exfalso; simp only [hp, if_true] at hres; cases hres
      · simpa using hp
    · intro h c hc
      obtain ⟨hcm, hcp⟩ := List.mem_filter.mp hc
      have hnd : ¬ c.1 = ("Datum") := by simpa using hcp
      simp [h c hcm hnd]
  simp only [load_from_df, hD]
  constructor
  · intro hres
    apply hiff.mp
    by_cases hsv : (survivorsOf (mkDf4 p (afterClean df) d)).isEmpty
    · exact List.isEmpty_iff.mp hsv
    · rw [if_neg hsv] at hres; cases hres
  · intro h
    have hsv : survivorsOf (mkDf4 p (afterClean df) d) = [] := hiff.mpr h
    simp [hsv]

/-- C5 witness: scenario B — the sole non-date column holds `0,00`,
`-1,00`, and a missing entry, and the pipeline fails with the DataError. -/
theorem c5_witness : load_from_df dpW tblB = .error .keineSpalten :=
  (c5_data_error_iff dpW tblB
    (.object [some ("d1"), some ("d2"), some ("d3")]) (by decide)).mpr (by decide)

/-- C2: a non-date column gets a chart in the final chart set iff at least
one of its coerced values (after cleaning, marker-row removal, and
invalid-date row removal) is strictly greater than zero. -/
theorem c2_column_survival_iff (p : DateParser) (df out : DF) (d : Series)
    (hD : getCol (afterClean df) ("Datum") = some d)
    (h : load_from_df p df = .ok out) (nm : String) (hnm : ¬ nm = ("Datum")) :
    (∃ f ∈ build_figures out, f.title = nm) ↔
      ∃ c ∈ mkDf4 p (afterClean df) d,
        c.1 = nm ∧ hasPositive (_coerce_numeric c.2) = true := by
  simp only [load_from_df, hD] at h
  by_cases hsv : (survivorsOf (mkDf4 p (afterClean df) d)).isEmpty
  · rw [if_pos hsv] at h; cases h
  · rw [if_neg hsv] at h
    injection h with hout
    subst hout
    constructor
    · rintro ⟨f, hf, hft⟩
      simp only [build_figures] at hf
      obtain ⟨c', hc', hfc⟩ := List.mem_map.mp hf
      obtain ⟨hc'm, hc'p⟩ := List.mem_filter.mp hc'
      have hname : c'.1 = nm := by rw [← hft, ← hfc]
      rcases List.mem_cons.mp hc'm with hhd | hsvm
      · exfalso
        apply hnm
        rw [← hname, hhd]
      · obtain ⟨c4, hc4, hc4eq⟩ := List.mem_filterMap.mp hsvm
        obtain ⟨hc4m, _⟩ := List.mem_filter.mp hc4
        simp only [] at hc4eq
        split at hc4eq
        · injection hc4eq with h5
          refine ⟨c4, hc4m, ?_, by assumption⟩
          rw [← hname, ← h5]
        · cases hc4eq
    · rintro ⟨c, hc, hcn, hcp⟩
      have hsvmem : (nm, Series.numeric (_coerce_numeric c.2))
          ∈ survivorsOf (mkDf4 p (afterClean df) d) := by
        apply List.mem_filterMap.mpr
        refine ⟨c, List.mem_filter.mpr ⟨hc, by simpa using (hcn ▸ hnm)⟩, ?_⟩
        simp only [hcp, if_true, hcn]
      refine ⟨_, List.mem_map.mpr ⟨(nm, Series.numeric (_coerce_numeric c.2)),
        List.mem_filter.mpr ⟨List.mem_cons.mpr (Or.inr hsvmem), by simpa using hnm⟩,
        rfl⟩, rfl⟩

/-- C2 witness: the positive column of `tblA` appears in the chart set. -/
theorem c2_witness :
    ∃ f ∈ build_figures outA, f.title = ("Leistung (kW)") :=
  (c2_column_survival_iff dpW tblA outA (.object [some ("d1")]) (by decide) (by decide)
    ("Leistung (kW)") (by decide)).mpr (by decide)

/-- Selecting nothing: the right-hand list exhausted. -/
theorem filterByMask_nilR {α : Type} (k : List Bool) :
    filterByMask k ([] : List α) = [] := by
  cases k with
  | nil => rfl
  | cons b ks => cases b <;> rfl

/-- Every entry of `expandMask bs []` is `false`. -/
theorem expandMask_nilR_false (bs : List Bool) :
    ∀ b ∈ expandMask bs [], b = false := by
  induction bs with
  | nil => intro b hb; cases hb
  | cons x bs ih =>
      intro b hb
      cases x <;> (
        simp only [expandMask, List.mem_cons] at hb
        rcases hb with h | h
        · exact h
        · exact ih b h)

/-- Applying two row masks in sequence equals one application of their
composite. -/
theorem filterByMask_expand {α : Type} (k1 k2 : List Bool) (xs : List α) :
    filterByMask k2 (filterByMask k1 xs) = filterByMask (expandMask k1 k2) xs := by
  induction k1 generalizing k2 xs with
  | nil =>
      show filterByMask k2 (filterByMask [] xs) = filterByMask (expandMask [] k2) xs
      cases xs <;> simp [filterByMask, expandMask, filterByMask_nilR]
  | cons b bs ih =>
      cases b
      case false =>
        cases xs with
        | nil => simp [filterByMask_nilR, expandMask]
        | cons x xs =>
            show filterByMask k2 (filterByMask bs xs)
              = filterByMask (false :: expandMask bs k2) (x :: xs)
            exact ih k2 xs
      case true =>
        cases k2 with
        | nil =>
            show filterByMask [] (filterByMask (true :: bs) xs)
              = filterByMask (expandMask (true :: bs) []) xs
            cases xs with
            | nil => simp [filterByMask_nilR]
            | cons x xs =>
                show ([] : List α) = filterByMask (false :: expandMask bs []) (x :: xs)
                exact (filterByMask_allFalse _ _ (expandMask_nilR_false bs)).symm
        | cons k ks =>
            cases xs with
            | nil => simp [filterByMask_nilR]
            | cons x xs =>
                cases k
                case true =>
                    show x :: filterByMask ks (filterByMask bs xs)
                      = x :: filterByMask (expandMask bs ks) xs
                    rw [ih ks xs]
                case false =>
                    show filterByMask ks (filterByMask bs xs)
                      = filterByMask (expandMask bs ks) xs
                    exact ih ks xs

/-- A position dropped by the first mask stays dropped in the composite. -/
theorem expandMask_getD_false (k1 k2 : List Bool) (i : Nat)
    (h : k1.getD i false = false) : (expandMask k1 k2).getD i false = false := by
  induction k1 generalizing k2 i with
  | nil => simp [expandMask]
  | cons b bs ih =>
      cases b
      case false =>
        cases i with
        | zero => rfl
        | succ i => exact ih k2 i h
      case true =>
        cases i with
        | zero => cases h
        | succ i =>
            cases k2 with
            | nil => exact ih [] i h
            | cons k ks => exact ih ks i h

/-- Mapping a function commutes with row-mask selection. -/
theorem map_filterByMask {α β : Type} (f : α → β) (k : List Bool) (xs : List α) :
    (filterByMask k xs).map f = filterByMask k (xs.map f) := by
  induction k generalizing xs with
  | nil => cases xs <;> rfl
  | cons b k ih =>
      cases xs with
      | nil => cases b <;> rfl
      | cons x xs => cases b <;> simp [filterByMask, ih]

/-- Coercion commutes with row-mask selection: it acts cellwise. -/
theorem coerce_mask (s : Series) (k : List Bool) :
    _coerce_numeric (s.mask k) = filterByMask k (_coerce_numeric s) := by
  cases s <;> simp [Series.mask, _coerce_numeric, map_filterByMask]

/-- Date parsing commutes with row-mask selection: it acts cellwise. -/
theorem toDatetime_mask (p : DateParser) (s : Series) (k : List Bool) :
    toDatetime p (s.mask k) = filterByMask k (toDatetime p s) := by
  cases s <;> simp [Series.mask, toDatetime, map_filterByMask]

/-- A mask that is everywhere true and long enough selects everything. -/
theorem filterByMask_allTrue {α : Type} (k : List Bool) (xs : List α)
    (hk : ∀ b ∈ k, b = true) (hl : xs.length ≤ k.length) : filterByMask k xs = xs := by
  induction k generalizing xs with
  | nil =>
      cases xs with
      | nil => rfl
      | cons x xs => simp at hl
  | cons b k ih =>
      cases xs with
      | nil => cases b <;> rfl
      | cons x xs =>
          have hb : b = true := hk b (by simp)
          subst hb
          show x :: filterByMask k xs = x :: xs
          rw [ih xs (fun b hb => hk b (by simp [hb])) (by simpa using hl)]

/-- A long-enough all-true mask leaves a series unchanged. -/
theorem seriesMask_allTrue (s : Series) (k : List Bool) (hk : ∀ b ∈ k, b = true)
    (hl : s.vlen ≤ k.length) : s.mask k = s := by
  cases s <;>
    simp only [Series.mask, Series.vlen] at hl ⊢ <;>
    rw [filterByMask_allTrue _ _ hk hl]

/-- Cleaning preserves a series's length. -/
theorem vlen_cleanSeries (s : Series) : (cleanSeries s).vlen = s.vlen := by
  cases s <;> simp [cleanSeries, Series.vlen]

/-- Stripping column names keeps the row count. -/
theorem nrows_stripColumns (df : DF) : nrows (stripColumns df) = nrows df := by
  cases df <;> rfl

/-- Cleaning keeps the row count. -/
theorem nrows_clean (df : DF) : nrows (_clean_object_columns df) = nrows df := by
  cases df with
  | nil => rfl
  | cons c df => simp [_clean_object_columns, nrows, vlen_cleanSeries]

/-- Stripping column names keeps well-formedness. -/
theorem wf_stripColumns (df : DF) (h : wfDF df) : wfDF (stripColumns df) := by
  intro c hc
  obtain ⟨c0, hc0, hceq⟩ := List.mem_map.mp hc
  rw [← hceq, nrows_stripColumns]
  exact h c0 hc0

/-- Cleaning keeps well-formedness. -/
theorem wf_clean (df : DF) (h : wfDF df) : wfDF (_clean_object_columns df) := by
  intro c hc
  obtain ⟨c0, hc0, hceq⟩ := List.mem_map.mp hc
  rw [← hceq, nrows_clean]
  show (cleanSeries c0.2).vlen = nrows df
  rw [vlen_cleanSeries]
  exact h c0 hc0

/-- The marker mask indexes the rows. -/
theorem markerMask_length (df : DF) : (markerMask df).length = nrows df := by
  simp [markerMask]

/-- For a well-formed table the conditional marker-row removal equals the
unconditional application of the negated marker mask. -/
theorem dropDefRows_eq_mask (df : DF) (hwf : wfDF df) :
    dropDefinitionRows df = maskDF ((markerMask df).map not) df := by
  unfold dropDefinitionRows
  by_cases hm : (markerMask df).any id
  · rw [if_pos hm]
  · rw [if_neg hm]
    have hall : ∀ b ∈ (markerMask df).map not, b = true := by
      intro b hb
      obtain ⟨b0, hb0, hbeq⟩ := List.mem_map.mp hb
      have hb0f : b0 = false := by
        by_contra hb0t
        exact hm (List.any_eq_true.mpr ⟨b0, hb0, by simpa using hb0t⟩)
      rw [← hbeq, hb0f]
      rfl
  
    have hcols : ∀ c ∈ df, (c.1, c.2.mask ((markerMask df).map not)) = c := by
      intro c hc
      rw [seriesMask_allTrue c.2 _ hall (by
        rw [List.length_map, markerMask_length]
        rw [hwf c hc])]
    unfold maskDF
    exact ((List.map_congr_left (fun c hc => hcols c hc)).trans (List.map_id df)).symm

/-- A character map under which the pattern is fixed preserves occurrence
of the pattern. -/
theorem infixOfMap {f : Char → Char} {M l : List Char} (hf : M.map f = M)
    (h : M <:+: l) : M <:+: l.map f := by
  obtain ⟨u, v, huv⟩ := h
  exact ⟨u.map f, v.map f, by rw [← huv]; simp [hf]⟩

/-- A character filter that keeps the whole pattern preserves occurrence of
the pattern: nothing is removed from inside a contiguous occurrence. -/
theorem infixOfFilter {p : Char → Bool} {M l : List Char} (hf : M.filter p = M)
    (h : M <:+: l) : M <:+: l.filter p := by
  obtain ⟨u, v, huv⟩ := h
  exact ⟨u.filter p, v.filter p, by rw [← huv]; simp [List.filter_append, hf]⟩

/-- Dropping a leading run of characters that cannot start the pattern
preserves occurrence of the pattern. -/
theorem infixOfDropWhile {q : Char → Bool} {M : List Char}
    (hM : ∀ c, M.head? = some c → q c = false) :
    ∀ {l : List Char}, M <:+: l → M <:+: l.dropWhile q := by
  intro l
  induction l with
  | nil => intro h; simpa using h
  | cons c t ih =>
      intro h
      by_cases hqc : q c = true
      · rw [List.dropWhile_cons, if_pos hqc]
        apply ih
        obtain ⟨u, v, huv⟩ := h
        cases u with
        | nil =>
            cases M with
            | nil => exact ⟨[], t, by simp⟩
            | cons m M' =>
                exfalso
                rw [List.nil_append, List.cons_append] at huv
                injection huv with h1 h2
                have hqm := hM m rfl
                rw [h1, hqc] at hqm
                cases hqm
        | cons x u' =>
            rw [List.cons_append, List.cons_append] at huv
            injection huv with h1 h2
            exact ⟨u', v, h2⟩
      · rw [List.dropWhile_cons, if_neg hqc]
        exact h

/-- Occurrence of a pattern is preserved under reversal (of both). -/
theorem infixOfRev {M l : List Char} (h : M <:+: l) :
    M.reverse <:+: l.reverse := by
  obtain ⟨u, v, huv⟩ := h
  exact ⟨v.reverse, u.reverse, by rw [← huv]; simp⟩

/-- Stripping whitespace from both ends preserves a pattern that neither
starts nor ends with whitespace. -/
theorem infixOfPyStrip {M l : List Char}
    (hh : ∀ c, M.head? = some c → isPySpace c = false)
    (hl : ∀ c, M.reverse.head? = some c → isPySpace c = false)
    (h : M <:+: l) : M <:+: pyStrip l := by
  unfold pyStrip
  have h1 : M <:+: l.dropWhile isPySpace := infixOfDropWhile hh h
  have h2 : M.reverse <:+: (l.dropWhile isPySpace).reverse := infixOfRev h1
  have h3 : M.reverse <:+: ((l.dropWhile isPySpace).reverse.dropWhile isPySpace) :=
    infixOfDropWhile hl h2
  have h4 := infixOfRev h3
  rwa [List.reverse_reverse] at h4

/-- A cell whose text contains the annotation marker still contains it
after cleaning: none of the marker's characters is replaced, removed, or
stripped. -/
theorem marker_survives_clean {s : String} (h : markerChars <:+: s.data) :
    ∃ t, cleanCell (some s) = some t ∧ markerChars <:+: t.data := by
  have h1 : markerChars <:+: (((s.data.map replNarrowNbsp).map replNbsp).map replTab) :=
    infixOfMap (by decide) (infixOfMap (by decide) (infixOfMap (by decide) h))
  have h2 : markerChars <:+:
      ((((s.data.map replNarrowNbsp).map replNbsp).map replTab).filter
        (fun ch => ch ≠ ('"'))) :=
    infixOfFilter (by decide) h1
  have h3 : markerChars <:+:
      pyStrip ((((s.data.map replNarrowNbsp).map replNbsp).map replTab).filter
        (fun ch => ch ≠ ('"'))) :=
    infixOfPyStrip (by decide) (by decide) h2
  refine ⟨String.mk (pyStrip ((((s.data.map replNarrowNbsp).map replNbsp).map replTab).filter
      (fun ch => ch ≠ ('"')))), ?_, h3⟩
  show cleanCell (some s) = _
  simp only [cleanCell]
  rw [if_neg ?_]
  intro hemp
  rw [List.isEmpty_iff] at hemp
  rw [hemp] at h3
  obtain ⟨u, v, huv⟩ := h3
  have h6 : markerChars = [] :=
    (List.append_eq_nil.mp (List.append_eq_nil.mp huv).1).2
  exact absurd h6 (by decide)

/-- Marker preservation lifted to the cell level. -/
theorem cellMarker_survives (c : Option String) (h : cellHasMarker c = true) :
    cellHasMarker (cleanCell c) = true := by
  cases c with
  | none => cases h
  | some s =>
      have hin : markerChars <:+: s.data := by
        simpa [cellHasMarker] using h
      obtain ⟨t, hct, hti⟩ := marker_survives_clean hin
      rw [hct]
      simpa [cellHasMarker] using hti

/-- A row index at which a series shows the marker is in range. -/
theorem markerAt_lt (s : Series) (i : Nat) (h : s.markerAt i = true) :
    i < s.vlen := by
  cases s with
  | object vs =>
      simp only [Series.markerAt] at h
      by_contra hge
      push_neg at hge
      rw [List.getD_eq_getElem?_getD,
        List.getElem?_eq_none (by simpa [Series.vlen] using hge)] at h
      cases h
  | numeric vs => cases h
  | datetime vs => cases h

/-- Cleaning preserves the marker at every row. -/
theorem markerAt_cleanSeries (s : Series) (i : Nat) (h : s.markerAt i = true) :
    (cleanSeries s).markerAt i = true := by
  cases s with
  | object vs =>
      simp only [Series.markerAt, cleanSeries] at h ⊢
      have hmap : (vs.map cleanCell).getD i none = cleanCell (vs.getD i none) := by
        rw [List.getD_eq_getElem?_getD, List.getD_eq_getElem?_getD, List.getElem?_map]
        cases hv : vs[i]? <;> simp [hv, cleanCell]
      rw [hmap]
      exact cellMarker_survives _ h
  | numeric vs => cases h
  | datetime vs => cases h

/-- Reading the marker mask at an in-range row. -/
theorem markerMask_getD (df : DF) (i : Nat) (hi : i < nrows df) :
    (markerMask df).getD i false = df.any (fun c => c.2.markerAt i) := by
  unfold markerMask
  rw [List.getD_eq_getElem?_getD, List.getElem?_map, List.getElem?_range hi]
  rfl

/-- An original row with the marker is flagged by the marker mask computed
on the cleaned table. -/
theorem origMarker_dropped (df : DF) (hwf : wfDF df) (i : Nat)
    (h : origRowHasMarker df i) :
    (markerMask (_clean_object_columns (stripColumns df))).getD i false = true := by
  obtain ⟨c, hc, hm⟩ := h
  have hlt : i < c.2.vlen := markerAt_lt _ _ hm
  have hn : i < nrows (_clean_object_columns (stripColumns df)) := by
    rw [nrows_clean, nrows_stripColumns, ← hwf c hc]
    exact hlt
  rw [markerMask_getD _ _ hn]
  apply List.any_eq_true.mpr
  refine ⟨(pyStripStr c.1, cleanSeries c.2), ?_, markerAt_cleanSeries _ _ hm⟩
  unfold _clean_object_columns stripColumns
  rw [List.map_map]
  exact List.mem_map.mpr ⟨c, hc, rfl⟩

/-- Negating a mask turns a flagged position into a dropped one. -/
theorem mapNot_getD_false (m : List Bool) (i : Nat) (h : m.getD i false = true) :
    (m.map not).getD i false = false := by
  rw [List.getD_eq_getElem?_getD] at h ⊢
  rw [List.getElem?_map]
  cases hm : m[i]? with
  | none => rw [hm] at h; cases h
  | some b =>
      rw [hm] at h
      simp only [Option.getD_some] at h
      rw [h]
      rfl

/-- Column lookup on a masked table. -/
theorem getCol_maskDF (k : List Bool) (df : DF) (nm : String) :
    getCol (maskDF k df) nm = (getCol df nm).map (fun s => s.mask k) := by
  unfold getCol maskDF
  rw [List.find?_map]
  rw [show List.find? ((fun c => c.1 == nm) ∘ (fun c : String × Series => (c.1, c.2.mask k))) df
      = List.find? (fun c => c.1 == nm) df from rfl]
  cases hf : List.find? (fun c => c.1 == nm) df with
  | none => simp
  | some pr => simp

/-- C8: every row retained by the pipeline stems from an original row
without the annotation marker, and marker rows are excluded before the
column-survival evaluation: a single row mask `keep`, false at every
original row with a marker, selects the surviving rows of every output
column from its full-length processed value stream. -/
theorem c8_marker_rows_excluded (p : DateParser) (df out : DF) (hwf : wfDF df)
    (h : load_from_df p df = .ok out) :
    ∃ keep : List Bool,
      (∀ i, origRowHasMarker df i → keep.getD i false = false)
      ∧ ∀ c ∈ out, ∃ c0 ∈ _clean_object_columns (stripColumns df),
          c.1 = c0.1
          ∧ ((c.1 = ("Datum")
                ∧ c.2 = Series.datetime (filterByMask keep (toDatetime p c0.2)))
             ∨ (¬ c.1 = ("Datum")
                ∧ c.2 = Series.numeric (filterByMask keep (_coerce_numeric c0.2)))) := by
  have hwf2 : wfDF (_clean_object_columns (stripColumns df)) :=
    wf_clean _ (wf_stripColumns _ hwf)
  have hAC : afterClean df
      = maskDF ((markerMask (_clean_object_columns (stripColumns df))).map not)
          (_clean_object_columns (stripColumns df)) :=
    dropDefRows_eq_mask _ hwf2
  cases hD : getCol (afterClean df) ("Datum") with
  | none => simp only [load_from_df, hD] at h; cases h
  | some d =>
      simp only [load_from_df, hD] at h
      by_cases hsv : (survivorsOf (mkDf4 p (afterClean df) d)).isEmpty
      · rw [if_pos hsv] at h; cases h
      · rw [if_neg hsv] at h
        injection h with hout
        subst hout
        refine ⟨expandMask ((markerMask (_clean_object_columns (stripColumns df))).map not)
          (keepOfDates p d), ?_, ?_⟩
        · intro i hm
          exact expandMask_getD_false _ _ _
            (mapNot_getD_false _ _ (origMarker_dropped df hwf i hm))
        · intro c hc
          rw [hAC, getCol_maskDF] at hD
          cases hf : getCol (_clean_object_columns (stripColumns df)) ("Datum") with
          | none => rw [hf] at hD; cases hD
          | some d0 =>
              rw [hf, Option.map_some'] at hD
              injection hD with hd
              obtain ⟨pr, hprf, hprd⟩ : ∃ pr : String × Series,
                  (_clean_object_columns (stripColumns df)).find?
                    (fun c => c.1 == ("Datum")) = some pr ∧ pr.2 = d0 := by
                unfold getCol at hf
                cases hpr : (_clean_object_columns (stripColumns df)).find?
                    (fun c => c.1 == ("Datum")) with
                | none => rw [hpr] at hf; cases hf
                | some pr =>
                    rw [hpr] at hf
                    exact ⟨pr, rfl, by simpa using hf⟩
              have hprmem : pr ∈ _clean_object_columns (stripColumns df) :=
                List.mem_of_find?_eq_some hprf
              have hprname : pr.1 = ("Datum") := by
                simpa using List.find?_some hprf
              rcases List.mem_cons.mp hc with hhd | hsvm
              · refine ⟨pr, hprmem, ?_, Or.inl ⟨?_, ?_⟩⟩
                · rw [hhd, hprname]
                · rw [hhd]
                · rw [hhd]
                  show Series.datetime (datumVals p d) = _
                  congr 1
                  unfold datumVals
                  rw [show toDatetime p d
                      = filterByMask
                          ((markerMask (_clean_object_columns (stripColumns df))).map not)
                          (toDatetime p pr.2) from by
                    rw [hprd, ← hd, toDatetime_mask]]
                  rw [filterByMask_expand]
              · obtain ⟨c4, hc4, hc4eq⟩ := List.mem_filterMap.mp hsvm
                obtain ⟨hc4m, hc4p⟩ := List.mem_filter.mp hc4
                have hc4nd : ¬ c4.1 = ("Datum") := by simpa using hc4p
                rw [hAC] at hc4m
                unfold mkDf4 at hc4m
                obtain ⟨c3, hc3, hc3eq⟩ := List.mem_map.mp hc4m
                obtain ⟨c0, hc0, hc0eq⟩ := List.mem_map.mp hc3
                by_cases hc3n : c3.1 = ("Datum")
                · exfalso
                  apply hc4nd
                  rw [← hc3eq]
                  simp [hc3n]
                · have hc4parts : c4 = (c3.1, c3.2.mask (keepOfDates p d)) := by
                    rw [← hc3eq]
                    simp [hc3n]
                  simp only [] at hc4eq
                  split at hc4eq
                  next hp =>
                      injection hc4eq with hceq
                      refine ⟨c0, hc0, ?_, Or.inr ⟨?_, ?_⟩⟩
                      · rw [← hceq, hc4parts, ← hc0eq]
                      · intro hcon
                        apply hc4nd
                        rw [← hceq] at hcon
                        simpa using hcon
                      · rw [← hceq, hc4parts]
                        show Series.numeric (_coerce_numeric (c3.2.mask (keepOfDates p d))) = _
                        congr 1
                        rw [← hc0eq]
                        show _coerce_numeric ((c0.2.mask
                          ((markerMask (_clean_object_columns (stripColumns df))).map not)).mask
                            (keepOfDates p d)) = _
                        rw [coerce_mask, coerce_mask, filterByMask_expand]
                  next => cases hc4eq

/-- C8 witness: the concrete table `tblM` with an annotation row. -/
theorem c8_witness :
    ∃ keep : List Bool,
      (∀ i, origRowHasMarker tblM i → keep.getD i false = false)
      ∧ ∀ c ∈ outM, ∃ c0 ∈ _clean_object_columns (stripColumns tblM),
          c.1 = c0.1
          ∧ ((c.1 = ("Datum")
                ∧ c.2 = Series.datetime (filterByMask keep (toDatetime dpW c0.2)))
             ∨ (¬ c.1 = ("Datum")
                ∧ c.2 = Series.numeric (filterByMask keep (_coerce_numeric c0.2)))) :=
  c8_marker_rows_excluded dpW tblM outM (by decide) (by decide)
